import Mathlib

/-!
Verification of the google-translate-cli program (src/main.rs).

The program is a single linear pipeline:
  1. join the command line arguments with spaces;
  2. if the joined string contains the substring given by the help flag,
     print the help text and exit 1;
  3. read the default languages from the environment variables
     GT_INPUT_LANGUAGE and GT_OUTPUT_LANGUAGE (empty string when unset
     or unreadable);
  4. run one anchored regex over the joined argument string and let its
     captures override the environment values;
  5. reject empty or non allow-listed language codes, exiting 1 with a
     message; otherwise
  6. call the translation API and print the first translation, or a
     caught error line, falling through with exit status 0.

Process output is modelled as the list of lines printed by println
(each element is printed with a trailing newline).  Exit by falling off
the end of main is modelled as exit code 0; a Rust panic (the unwrap on
the network send, or an out of bounds index) is modelled by a separate
constructor, since a panic prints nothing to standard output and does
not exit with status 0.
-/

/-- A character matched by the regex class [a-z]: one lowercase ASCII
letter (code points 97 to 122). -/
def isLowerAZ (c : Char) : Bool :=
  97 ≤ c.toNat && c.toNat ≤ 122

/-- A character matched by the regex class \s with Unicode support, and
equally a character trimmed by the trim method of str: the Unicode
White_Space property. -/
def isWhiteSpaceRust (c : Char) : Bool :=
  let n := c.toNat
  (9 ≤ n && n ≤ 13) || n = 32 || n = 133 || n = 160 || n = 5760 ||
  (8192 ≤ n && n ≤ 8202) || n = 8232 || n = 8233 || n = 8239 || n = 8287 || n = 12288

/-- Greedy run of characters satisfying p at the front of the list,
with the remainder: the semantics of a greedy character-class
repetition in the regex. -/
def spanP (p : Char → Bool) (l : List Char) : List Char × List Char :=
  (l.takeWhile p, l.dropWhile p)

/-- Match a literal character sequence at the front of the list,
returning the remainder; none when the literal is not a prefix. -/
def stripLit : List Char → List Char → Option (List Char)
  | [], s => some s
  | _ :: _, [] => none
  | p :: ps, c :: cs => if p = c then stripLit ps cs else none

/-- Match a literal flag (such as the three characters of the input
flag: dash, letter, space) followed by a nonempty greedy run of
lowercase ASCII letters, as in the regex groups of main.rs line 186.
Returns the captured letters and the remainder. -/
def matchFlagAt (flag s : List Char) : Option (List Char × List Char) :=
  match stripLit flag s with
  | none => none
  | some rest =>
    match spanP isLowerAZ rest with
    | ([], _) => none
    | (a :: as, r1) => some (a :: as, r1)

/-- The optional first regex group: the input flag with its language
code, anchored at the very start of the joined argument string. -/
def matchFlagI (s : List Char) : Option (List Char × List Char) :=
  matchFlagAt (("-i ").data) s

/-- The optional second regex group: greedy whitespace, then the output
flag with its language code.  The whitespace run is consumed only when
the whole group matches. -/
def matchFlagO (r : List Char) : Option (List Char × List Char) :=
  matchFlagAt (("-o ").data) ((spanP isWhiteSpaceRust r).2)

/-- Whether a character occurs in a list (the dot of the regex refuses
exactly the newline character). -/
def containsChar (l : List Char) (c : Char) : Bool :=
  l.any (fun x => x == c)

/-- The three named capture groups of the regex of main.rs line 186.
In a successful match the text group always participates (its body is
a possibly-empty repetition), so it is not optional here. -/
structure Caps where
  input_language : Option (List Char)
  output_language : Option (List Char)
  text : List Char
deriving DecidableEq, Repr

/-- Second half of the regex match, after the optional input-flag group
has consumed a prefix g1/r1: try the optional output-flag group, then
require the text group (dot star) to reach the end of the string, which
succeeds exactly when the remainder contains no newline. -/
def reCapturesAux (g1 : Option (List Char)) (r1 : List Char) : Option Caps :=
  match matchFlagO r1 with
  | some pr => if containsChar pr.2 '\n' then none else some ⟨g1, some pr.1, pr.2⟩
  | none => if containsChar r1 '\n' then none else some ⟨g1, none, r1⟩

/-- The full anchored regex of main.rs line 186 applied to the joined
argument string, under the leftmost-first greedy semantics of the Rust
regex crate.

Why this greedy, non-backtracking computation is the exact semantics:
each optional group is tried first with its maximal greedy extent, and
the final text group (dot star, then end anchor) succeeds exactly when
the remaining suffix holds no newline.  Whenever that top-priority path
fails, every lower-priority alternative also fails, because every
alternative leaves a remainder of which the top-priority remainder is a
suffix, so the blocking newline is still present: shortening a letter
run puts letters (never a newline) back into the remainder; skipping
the output-flag group puts its whitespace, literal and letters back;
skipping the input-flag group leaves the whole string, whose suffix the
remainder is.  Also, inside the output-flag group the greedy whitespace
run cannot be shortened, since the following literal starts with a dash,
which is not a whitespace character. -/
def reCaptures (s : List Char) : Option Caps :=
  match matchFlagI s with
  | some pr => reCapturesAux (some pr.1) pr.2
  | none => reCapturesAux none s

/-- The trim method of Rust str: remove leading and trailing Unicode
whitespace. -/
def rustTrim (s : List Char) : List Char :=
  ((s.dropWhile isWhiteSpaceRust).reverse.dropWhile isWhiteSpaceRust).reverse

/-- Substring containment, the contains method of Rust str with a
string pattern (main.rs line 191). -/
def containsSub (needle : List Char) : List Char → Bool
  | [] => needle.isEmpty
  | c :: rest => needle.isPrefixOf (c :: rest) || containsSub needle rest

/-- Whether the joined argument string asks for help: it contains the
help flag as a substring anywhere. -/
def containsHelp (args : String) : Bool :=
  containsSub (("--help").data) args.data

/-- The allow-list of language codes, main.rs lines 170 to 179,
in source order. -/
def allowed_languages : List String :=
  [("af"), ("sq"), ("am"), ("ar"), ("hy"), ("az"), ("eu"), ("be"), ("bn"), ("bs"),
   ("bg"), ("ca"), ("ceb"), ("zh-CN"), ("zh"), ("zh-TW"), ("co"), ("hr"), ("cs"),
   ("da"), ("nl"), ("en"), ("eo"), ("et"), ("fi"), ("fr"), ("fy"), ("gl"), ("ka"),
   ("de"), ("el"), ("gu"), ("ht"), ("ha"), ("haw"), ("he"), ("iw"), ("hi"), ("hmn"),
   ("hu"), ("is"), ("ig"), ("id"), ("ga"), ("it"), ("ja"), ("jv"), ("kn"), ("kk"),
   ("km"), ("rw"), ("ko"), ("ku"), ("ky"), ("lo"), ("la"), ("lv"), ("lt"), ("lb"),
   ("mk"), ("mg"), ("ms"), ("ml"), ("mt"), ("mi"), ("mr"), ("mn"), ("my"), ("ne"),
   ("no"), ("ny"), ("or"), ("ps"), ("fa"), ("pl"), ("pt"), ("pa"), ("ro"), ("ru"),
   ("sm"), ("gd"), ("sr"), ("st"), ("sn"), ("sd"), ("si"), ("sk"), ("sl"), ("so"),
   ("es"), ("su"), ("sw"), ("sv"), ("tl"), ("tg"), ("ta"), ("tt"), ("te"), ("th"),
   ("tr"), ("tk"), ("uk"), ("ur"), ("ug"), ("uz"), ("vi"), ("cy"), ("xh"), ("yi"),
   ("yo"), ("zu")]

/-- The membership test of main.rs lines 230 and 234: an iterator over
the allow-list with an any test for equality. -/
def language_allowed (lang : String) : Bool :=
  allowed_languages.any (fun c => c == lang)

/-- The resolved request of the struct Input in main.rs lines 9 to 13. -/
structure Input where
  input_language : String
  output_language : String
  text : String
deriving DecidableEq, Repr

/-- Resolution of the request, main.rs lines 196 to 217: start from the
environment values (empty string models an unset or unreadable
variable), then let each present capture override its value; the text
capture is trimmed.  When the regex does not match nothing changes and
the text stays empty. -/
def resolve_request (envIn envOut args : String) : String × String × String :=
  match reCaptures args.data with
  | some caps =>
    let input_language :=
      match caps.input_language with
      | some v => String.mk v
      | none => envIn
    let output_language :=
      match caps.output_language with
      | some v => String.mk v
      | none => envOut
    let text := String.mk (rustTrim caps.text)
    (input_language, output_language, text)
  | none => (envIn, envOut, (""))

/-- Outcome of parse_input: render help, terminate with an error line,
or hand a resolved and validated request to the translation client.
Help and error outcomes exit the process with status 1. -/
inductive Outcome where
  | help
  | err (msg : String)
  | ok (input : Input)
deriving DecidableEq, Repr

/-- The four sequential checks of main.rs lines 220 to 237: empty input
language, empty output language, input language not in the allow-list,
output language not in the allow-list; each failing check prints its
line and exits 1 before the next check runs. -/
def check_languages (input_language output_language text : String) : Outcome :=
  if input_language.isEmpty then
    Outcome.err ("No input language provided. Type --help to see allowed languages")
  else if output_language.isEmpty then
    Outcome.err ("No output language provided. Type --help to see allowed languages")
  else if !(language_allowed input_language) then
    Outcome.err ("Input language is not allowed. Type --help to see allowed languages")
  else if !(language_allowed output_language) then
    Outcome.err ("Output language is not allowed. Type --help to see allowed languages")
  else
    Outcome.ok ⟨input_language, output_language, text⟩

/-- The parse_input function of main.rs lines 169 to 244: the help
check runs first, then resolution, then the language checks. -/
def parse_input (envIn envOut args : String) : Outcome :=
  if containsHelp args then Outcome.help
  else
    match resolve_request envIn envOut args with
    | (i, o, t) => check_languages i o t

/-- The innermost response struct, main.rs lines 18 to 20. -/
structure Translated where
  translatedText : String
deriving DecidableEq, Repr

/-- The middle response struct, main.rs lines 22 to 25. -/
structure Translations where
  translations : List Translated
deriving DecidableEq, Repr

/-- The response envelope struct, main.rs lines 28 to 31. -/
structure Ip where
  data : Translations
deriving DecidableEq, Repr

/-- A JSON value, the abstract shape of an HTTP response body after
lexical parsing. -/
inductive Json where
  | null
  | bool (b : Bool)
  | num (n : Int)
  | str (s : String)
  | arr (elems : List Json)
  | obj (fields : List (String × Json))
deriving Repr

/-- Scan the fields of a JSON object for one key, as the derived
deserializer does: at most one occurrence is permitted (a second one is
a duplicate-field error), unknown keys are ignored. -/
def collectField (key : String) (fields : List (String × Json)) : Except String (Option Json) :=
  fields.foldl
    (fun acc kv =>
      match acc with
      | Except.error e => Except.error e
      | Except.ok found =>
        if kv.1 == key then
          match found with
          | some _ => Except.error (("duplicate field ") ++ key)
          | none => Except.ok (some kv.2)
        else Except.ok found)
    (Except.ok none)

/-- Require exactly one occurrence of a field key in a JSON object. -/
def requireField (key : String) (fields : List (String × Json)) : Except String Json :=
  match collectField key fields with
  | Except.error e => Except.error e
  | Except.ok none => Except.error (("missing field ") ++ key)
  | Except.ok (some v) => Except.ok v

/-- A JSON value deserialized as a Rust String field. -/
def asString : Json → Except String String
  | Json.str s => Except.ok s
  | _ => Except.error ("invalid type: expected a string")

/-- Derived deserialization of the struct Translated from a JSON value
(the map path of the derive, which is the one JSON objects take):
exactly one translatedText field holding a string. -/
def deserializeTranslated : Json → Except String Translated
  | Json.obj fields => do
    let v ← requireField ("translatedText") fields
    let s ← asString v
    Except.ok ⟨s⟩
  | _ => Except.error ("invalid type: expected struct Translated")

/-- Deserialization of a Vec of Translated from a JSON array, element
by element, stopping at the first failure. -/
def deserializeTranslatedList : List Json → Except String (List Translated)
  | [] => Except.ok []
  | j :: rest => do
    let t ← deserializeTranslated j
    let ts ← deserializeTranslatedList rest
    Except.ok (t :: ts)

/-- Derived deserialization of the struct Translations: exactly one
translations field holding an array. -/
def deserializeTranslations : Json → Except String Translations
  | Json.obj fields => do
    let v ← requireField ("translations") fields
    match v with
    | Json.arr elems => do
      let ts ← deserializeTranslatedList elems
      Except.ok ⟨ts⟩
    | _ => Except.error ("invalid type: expected a sequence")
  | _ => Except.error ("invalid type: expected struct Translations")

/-- Derived deserialization of the envelope struct Ip: exactly one
data field holding a Translations object.  This is the json call of
main.rs line 267 applied to a parsed response body. -/
def deserializeIp : Json → Except String Ip
  | Json.obj fields => do
    let v ← requireField ("data") fields
    let d ← deserializeTranslations v
    Except.ok ⟨d⟩
  | _ => Except.error ("invalid type: expected struct Ip")

/-- Observable end of the process: either a normal exit after printing
the listed lines (each line printed with a trailing newline), or a Rust
panic, which prints nothing to standard output and aborts. -/
inductive ProgResult where
  | exited (lines : List String) (code : Nat)
  | panicked
deriving DecidableEq, Repr

/-- The translate function of main.rs lines 246 to 273 (named
translateRun here because the source name is taken).  Its network
interaction is a value of type Option (Except String Ip): none models a
transport-level failure, on which the unwrap of line 266 panics; some
(Except.error e) models a response whose body does not deserialize into
the envelope, where e is the display text of the error; some (Except.ok
res) models a successfully deserialized response.  An empty access key
is rejected before any network interaction.  Indexing the translations
vector at zero panics when the vector is empty. -/
def translateRun (access_key : String) (net : Option (Except String Ip)) : ProgResult :=
  if access_key.isEmpty then
    ProgResult.exited
      [("A Google access key is required. See this for how to create one: https://cloud.google.com/translate/docs/setup")] 1
  else
    match net with
    | none => ProgResult.panicked
    | some (Except.error e) =>
      ProgResult.exited [(("There was the following error with the API call: ") ++ e)] 0
    | some (Except.ok res) =>
      match res.data.translations with
      | [] => ProgResult.panicked
      | t :: _ => ProgResult.exited [t.translatedText] 0

/-- The text printed by print_help, main.rs lines 43 to 167: the
argument of the println call (the trailing newline of println itself is
the line separator of the output model). -/
def help_text : String :=
"
To translate something something using google translate, use the format
`google-translate -i <input_language> -o <output_language> <text to translate>.

You may also provide the input language with the environment variable GT_INPUT_LANGUAGE
and output language with environment variable GT_OUTPUT_LANGUAGE.

This requires an environment variable GOOGLE_ACCESS_KEY which can be retrieved with `gcloud auth application-default print-access-token`

The allowed languages are:

Afrikaans - af
Albanian - sq
Amharic - am
Arabic - ar
Armenian - hy
Azerbaijani - az
Basque - eu
Belarusian - be
Bengali - bn
Bosnian - bs
Bulgarian - bg
Catalan - ca
Cebuano - ceb (ISO-639-2)
Chinese (Simplified) - zh-CN or zh (BCP-47)
Chinese (Traditional) - zh-TW (BCP-47)
Corsican - co
Croatian - hr
Czech - cs
Danish - da
Dutch - nl
English - en
Esperanto - eo
Estonian - et
Finnish - fi
French - fr
Frisian - fy
Galician - gl
Georgian - ka
German - de
Greek - el
Gujarati - gu
Haitian Creole - ht
Hausa - ha
Hawaiian - haw (ISO-639-2)
Hebrew - he or iw
Hindi - hi
Hmong - hmn (ISO-639-2)
Hungarian - hu
Icelandic - is
Igbo - ig
Indonesian - id
Irish - ga
Italian - it
Japanese - ja
Javanese - jv
Kannada - kn
Kazakh - kk
Khmer - km
Kinyarwanda - rw
Korean - ko
Kurdish - ku
Kyrgyz - ky
Lao - lo
Latin - la
Latvian - lv
Lithuanian - lt
Luxembourgish - lb
Macedonian - mk
Malagasy - mg
Malay - ms
Malayalam - ml
Maltese - mt
Maori - mi
Marathi - mr
Mongolian - mn
Myanmar (Burmese) - my
Nepali - ne
Norwegian - no
Nyanja (Chichewa) - ny
Odia (Oriya) - or
Pashto - ps
Persian - fa
Polish - pl
Portuguese (Portugal, Brazil) - pt
Punjabi - pa
Romanian - ro
Russian - ru
Samoan - sm
Scots Gaelic - gd
Serbian - sr
Sesotho - st
Shona - sn
Sindhi - sd
Sinhala (Sinhalese) - si
Slovak - sk
Slovenian - sl
Somali - so
Spanish - es
Sundanese - su
Swahili - sw
Swedish - sv
Tagalog (Filipino) - tl
Tajik - tg
Tamil - ta
Tatar - tt
Telugu - te
Thai - th
Turkish - tr
Turkmen - tk
Ukrainian - uk
Urdu - ur
Uyghur - ug
Uzbek - uz
Vietnamese - vi
Welsh - cy
Xhosa - xh
Yiddish - yi
Yoruba - yo
Zulu - zu"

/-- The main function, main.rs lines 275 to 278: parse_input then
translate.  The parsed request itself feeds only the request body,
which is not observable in the output, so the ok branch hands over to
translate; help and error outcomes print their line and exit 1. -/
def main_run (envIn envOut accessKey args : String) (net : Option (Except String Ip)) :
    ProgResult :=
  match parse_input envIn envOut args with
  | Outcome.help => ProgResult.exited [help_text] 1
  | Outcome.err m => ProgResult.exited [m] 1
  | Outcome.ok _i => translateRun accessKey net

/-- Stripping a literal succeeds exactly on strings with that prefix,
and returns the remainder after it. -/
theorem stripLit_some (pre : List Char) :
    ∀ s rest, stripLit pre s = some rest → s = pre ++ rest := by
  induction pre with
  | nil =>
    intro s rest h
    simp [stripLit] at h
    simp [h]
  | cons p ps ih =>
    intro s rest h
    cases s with
    | nil => simp [stripLit] at h
    | cons c cs =>
      simp only [stripLit] at h
      by_cases hpc : p = c
      · rw [if_pos hpc] at h
        subst hpc
        rw [List.cons_append, ih cs rest h]
      · rw [if_neg hpc] at h
        exact Option.noConfusion h

/-- Inversion of a successful flag match: the string splits as the
literal, a nonempty run of lowercase ASCII letters, and the remainder. -/
theorem matchFlagAt_some (flag s ls rest : List Char)
    (h : matchFlagAt flag s = some (ls, rest)) :
    s = flag ++ (ls ++ rest) ∧ ls ≠ [] ∧ ∀ ch ∈ ls, isLowerAZ ch = true := by
  unfold matchFlagAt at h
  cases hstrip : stripLit flag s with
  | none => rw [hstrip] at h; exact Option.noConfusion h
  | some r0 =>
    rw [hstrip] at h
    simp only [spanP] at h
    cases htw : r0.takeWhile isLowerAZ with
    | nil => rw [htw] at h; exact Option.noConfusion h
    | cons a as =>
      rw [htw] at h
      have hpair : a :: as = ls ∧ r0.dropWhile isLowerAZ = rest := by
        simpa using h
      obtain ⟨hls, hrest⟩ := hpair
      subst hls
      subst hrest
      refine ⟨?_, by simp, ?_⟩
      · have hs := stripLit_some flag s r0 hstrip
        have hr0 : r0.takeWhile isLowerAZ ++ r0.dropWhile isLowerAZ = r0 :=
          List.takeWhile_append_dropWhile isLowerAZ r0
        rw [hs]
        have hsplit : r0 = a :: as ++ r0.dropWhile isLowerAZ := by
          rw [← htw]; exact hr0.symm
        exact congrArg (fun x => flag ++ x) hsplit
      · intro ch hch
        have hmem : ch ∈ r0.takeWhile isLowerAZ := by rw [htw]; exact hch
        exact List.mem_takeWhile_imp hmem

/-- Inversion of a successful output-flag match: the string splits as
its leading whitespace run, the flag literal, a nonempty run of
lowercase letters, and the remainder. -/
theorem matchFlagO_some (r ls rest : List Char)
    (h : matchFlagO r = some (ls, rest)) :
    r = r.takeWhile isWhiteSpaceRust ++ ((("-o ").data) ++ (ls ++ rest)) ∧
      ls ≠ [] ∧ ∀ ch ∈ ls, isLowerAZ ch = true := by
  unfold matchFlagO at h
  have h2 := matchFlagAt_some (("-o ").data) ((spanP isWhiteSpaceRust r).2) ls rest h
  obtain ⟨heq, hne, hall⟩ := h2
  refine ⟨?_, hne, hall⟩
  simp only [spanP] at heq
  calc r = r.takeWhile isWhiteSpaceRust ++ r.dropWhile isWhiteSpaceRust :=
        (List.takeWhile_append_dropWhile isWhiteSpaceRust r).symm
    _ = r.takeWhile isWhiteSpaceRust ++ ((("-o ").data) ++ (ls ++ rest)) := by rw [heq]

/-- Character containment agrees with list membership. -/
theorem containsChar_iff (l : List Char) (c : Char) :
    containsChar l c = true ↔ c ∈ l := by
  constructor
  · intro h
    simp only [containsChar, List.any_eq_true] at h
    obtain ⟨x, hx, he⟩ := h
    have : x = c := by simpa using he
    exact this ▸ hx
  · intro h
    simp only [containsChar, List.any_eq_true]
    exact ⟨c, h, by simp⟩

/-- Every code in the allow-list is a nonempty string, so a code that
passes the membership test also passes the emptiness test. -/
theorem language_allowed_nonempty (c : String) (h : language_allowed c = true) :
    c.isEmpty = false := by
  have hex : ∃ x ∈ allowed_languages, (x == c) = true := by
    simpa [language_allowed, List.any_eq_true] using h
  obtain ⟨x, hx, hxc⟩ := hex
  have hx2 : x = c := by simpa using hxc
  subst hx2
  have hall : allowed_languages.all (fun s => !s.isEmpty) = true := by decide
  have hone := List.all_eq_true.mp hall x hx
  simpa using hone

/-- Inversion of the second half of the regex match: the input capture
is exactly the group handed in, the text capture holds no newline, and
the output capture with the text remainder reflect whether the
output-flag group matched. -/
theorem reCapturesAux_some_inv (g1 : Option (List Char)) (r1 : List Char) (c : Caps)
    (h : reCapturesAux g1 r1 = some c) :
    c.input_language = g1 ∧ containsChar c.text '\n' = false ∧
      ((c.output_language = none ∧ c.text = r1) ∨
        (∃ ls, matchFlagO r1 = some (ls, c.text) ∧ c.output_language = some ls)) := by
  unfold reCapturesAux at h
  cases hO : matchFlagO r1 with
  | some pr =>
    obtain ⟨ls2, r2⟩ := pr
    rw [hO] at h
    have h2 : (if containsChar r2 '\n' = true then none
        else some (⟨g1, some ls2, r2⟩ : Caps)) = some c := h
    by_cases hc : containsChar r2 '\n' = true
    · rw [if_pos hc] at h2
      exact Option.noConfusion h2
    · rw [if_neg hc] at h2
      injection h2 with h1
      subst h1
      refine ⟨rfl, by simpa using hc, Or.inr ⟨ls2, rfl, rfl⟩⟩
  | none =>
    rw [hO] at h
    have h2 : (if containsChar r1 '\n' = true then none
        else some (⟨g1, none, r1⟩ : Caps)) = some c := h
    by_cases hc : containsChar r1 '\n' = true
    · rw [if_pos hc] at h2
      exact Option.noConfusion h2
    · rw [if_neg hc] at h2
      injection h2 with h1
      subst h1
      refine ⟨rfl, by simpa using hc, Or.inl ⟨rfl, rfl⟩⟩

/-- Inversion of the full regex match with respect to the input-flag
group: either it did not match and the input capture is absent, or it
consumed a prefix and the input capture is its letter run. -/
theorem reCaptures_some_inv (s : List Char) (c : Caps) (h : reCaptures s = some c) :
    (c.input_language = none ∧ reCapturesAux none s = some c) ∨
      (∃ ls rest, matchFlagI s = some (ls, rest) ∧ c.input_language = some ls ∧
        reCapturesAux (some ls) rest = some c) := by
  unfold reCaptures at h
  cases hI : matchFlagI s with
  | none =>
    rw [hI] at h
    exact Or.inl ⟨(reCapturesAux_some_inv none s c h).1, h⟩
  | some pr =>
    obtain ⟨ls, rest⟩ := pr
    rw [hI] at h
    exact Or.inr ⟨ls, rest, rfl, (reCapturesAux_some_inv (some ls) rest c h).1, h⟩

/-- C1: for every successfully deserialized response whose translations
array is nonempty, the program prints the first translation (println
adds the trailing newline) and falls through with exit status 0; the
mock body holding the one translation Bonjour deserializes to that
shape and the full run prints exactly Bonjour with exit 0.  (The claim
as frozen also covers an empty translations array, where the program
panics instead; see the counterexample.) -/
theorem c1_success_prints_first_translation :
    (∀ (key : String) (res : Ip) (t : Translated) (ts : List Translated),
        key.isEmpty = false → res.data.translations = t :: ts →
        translateRun key (some (Except.ok res)) = ProgResult.exited [t.translatedText] 0) ∧
      deserializeIp (Json.obj [(("data"),
          Json.obj [(("translations"),
            Json.arr [Json.obj [(("translatedText"), Json.str ("Bonjour"))]])])]) =
        Except.ok ⟨⟨[⟨("Bonjour")⟩]⟩⟩ ∧
      main_run ("en") ("fr") ("token") ("hola") (some (Except.ok ⟨⟨[⟨("Bonjour")⟩]⟩⟩)) =
        ProgResult.exited [("Bonjour")] 0 := by
  refine ⟨?_, rfl, by decide⟩
  intro key res t ts hkey hres
  simp [translateRun, hkey, hres]

/-- Witness for C1 at a concrete key and response. -/
theorem c1_success_witness :
    (("k") : String).isEmpty = false ∧
      translateRun ("k") (some (Except.ok ⟨⟨[⟨("Bonjour")⟩]⟩⟩)) =
        ProgResult.exited [("Bonjour")] 0 :=
  ⟨rfl, c1_success_prints_first_translation.1 ("k") ⟨⟨[⟨("Bonjour")⟩]⟩⟩ ⟨("Bonjour")⟩ []
    rfl rfl⟩

/-- Counterexample to C1 as frozen: the body whose translations array
is empty deserializes successfully into the envelope, yet the program
panics on the out-of-bounds index instead of printing a line and
exiting 0. -/
theorem c1_empty_translations_counterexample :
    deserializeIp (Json.obj [(("data"),
        Json.obj [(("translations"), Json.arr [])])]) = Except.ok ⟨⟨[]⟩⟩ ∧
      translateRun ("token") (some (Except.ok ⟨⟨[]⟩⟩)) = ProgResult.panicked ∧
      ¬ ∃ lines : List String,
          translateRun ("token") (some (Except.ok ⟨⟨[]⟩⟩)) = ProgResult.exited lines 0 := by
  refine ⟨rfl, rfl, ?_⟩
  rintro ⟨lines, h⟩
  have hp : translateRun ("token") (some (Except.ok ⟨⟨[]⟩⟩)) = ProgResult.panicked := rfl
  rw [hp] at h
  exact ProgResult.noConfusion h

/-- C2: for every resolved request with both languages nonempty, a
non allow-listed input language yields the input error line and exit 1
no matter what the output language is; an allow-listed input with a non
allow-listed output yields the output error line and exit 1; and any
pair of allow-listed codes passes validation, so every allow-listed
code is accepted in both positions. -/
theorem c2_validation_order :
    (∀ (envIn envOut key args : String) (net : Option (Except String Ip))
        (i o t : String),
        containsHelp args = false →
        resolve_request envIn envOut args = (i, o, t) →
        i.isEmpty = false → o.isEmpty = false →
        (language_allowed i = false →
          main_run envIn envOut key args net =
            ProgResult.exited
              [("Input language is not allowed. Type --help to see allowed languages")] 1) ∧
        (language_allowed i = true → language_allowed o = false →
          main_run envIn envOut key args net =
            ProgResult.exited
              [("Output language is not allowed. Type --help to see allowed languages")] 1)) ∧
      (∀ (c c' t : String), language_allowed c = true → language_allowed c' = true →
        check_languages c c' t = Outcome.ok ⟨c, c', t⟩) := by
  constructor
  · intro envIn envOut key args net i o t hhelp hres hie hoe
    constructor
    · intro hia
      simp [main_run, parse_input, hhelp, hres, check_languages, hie, hoe, hia]
    · intro hia hoa
      simp [main_run, parse_input, hhelp, hres, check_languages, hie, hoe, hia, hoa]
  · intro c c' t hc hc'
    have h1 := language_allowed_nonempty c hc
    have h2 := language_allowed_nonempty c' hc'
    simp [check_languages, h1, h2, hc, hc']

/-- Witness for C2: a non allow-listed input code is rejected with the
input line, a non allow-listed output code with the output line, and an
allow-listed pair passes. -/
theorem c2_witness :
    main_run ("xx") ("fr") ("k") ("hola") none =
        ProgResult.exited
          [("Input language is not allowed. Type --help to see allowed languages")] 1 ∧
      main_run ("en") ("yy") ("k") ("hola") none =
        ProgResult.exited
          [("Output language is not allowed. Type --help to see allowed languages")] 1 ∧
      check_languages ("en") ("fr") ("hi") = Outcome.ok ⟨("en"), ("fr"), ("hi")⟩ :=
  ⟨(c2_validation_order.1 ("xx") ("fr") ("k") ("hola") none ("xx") ("fr") ("hola")
      (by decide) (by decide) (by decide) (by decide)).1 (by decide),
   (c2_validation_order.1 ("en") ("yy") ("k") ("hola") none ("en") ("yy") ("hola")
      (by decide) (by decide) (by decide) (by decide)).2 (by decide) (by decide),
   c2_validation_order.2 ("en") ("fr") ("hi") (by decide) (by decide)⟩

/-- C3: a capture produced by the pattern match replaces the
environment-derived value, an absent capture leaves it unchanged, a
failed match leaves both environment values with empty text, and the
example with environment en and fr plus arguments -i de hola resolves
to de, fr, hola. -/
theorem c3_capture_overrides_env :
    (∀ (envIn envOut args : String) (c : Caps),
        reCaptures args.data = some c →
        resolve_request envIn envOut args =
          (c.input_language.elim envIn String.mk,
           c.output_language.elim envOut String.mk,
           String.mk (rustTrim c.text))) ∧
      (∀ envIn envOut args : String,
        reCaptures args.data = none →
        resolve_request envIn envOut args = (envIn, envOut, (""))) ∧
      resolve_request ("en") ("fr") ("-i de hola") = (("de"), ("fr"), ("hola")) := by
  refine ⟨?_, ?_, by decide⟩
  · intro envIn envOut args c h
    cases c with
    | mk ci co ct =>
      cases ci <;> cases co <;> simp [resolve_request, h, Option.elim]
  · intro envIn envOut args h
    simp [resolve_request, h]

/-- Witness for C3 at the example of the claim: the input capture de
overrides the environment value en, the absent output capture keeps fr,
and the captured text is trimmed. -/
theorem c3_witness :
    resolve_request ("en") ("fr") ("-i de hola") =
      ((some (("de").data)).elim ("en") String.mk,
       (none : Option (List Char)).elim ("fr") String.mk,
       String.mk (rustTrim ((" hola").data))) :=
  c3_capture_overrides_env.1 ("en") ("fr") ("-i de hola")
    ⟨some (("de").data), none, ((" hola").data)⟩ (by decide)

/-- C4: after resolution, an empty input language prints the missing
input line and exits 1 (regardless of the output language, so the input
check runs first), and a nonempty input with an empty output prints the
missing output line and exits 1. -/
theorem c4_empty_language_checks :
    ∀ (envIn envOut key args : String) (net : Option (Except String Ip)) (i o t : String),
      containsHelp args = false →
      resolve_request envIn envOut args = (i, o, t) →
      (i.isEmpty = true →
        main_run envIn envOut key args net =
          ProgResult.exited
            [("No input language provided. Type --help to see allowed languages")] 1) ∧
      (i.isEmpty = false → o.isEmpty = true →
        main_run envIn envOut key args net =
          ProgResult.exited
            [("No output language provided. Type --help to see allowed languages")] 1) := by
  intro envIn envOut key args net i o t hhelp hres
  constructor
  · intro hie
    simp [main_run, parse_input, hhelp, hres, check_languages, hie]
  · intro hie hoe
    simp [main_run, parse_input, hhelp, hres, check_languages, hie, hoe]

/-- Witness for C4: with both environment variables unset and plain
text arguments, the run stops at the missing input language; with only
the output unset it stops at the missing output language. -/
theorem c4_witness :
    main_run ("") ("") ("k") ("hola") none =
        ProgResult.exited
          [("No input language provided. Type --help to see allowed languages")] 1 ∧
      main_run ("en") ("") ("k") ("hola") none =
        ProgResult.exited
          [("No output language provided. Type --help to see allowed languages")] 1 :=
  ⟨(c4_empty_language_checks ("") ("") ("k") ("hola") none ("") ("") ("hola")
      (by decide) (by decide)).1 (by decide),
   (c4_empty_language_checks ("en") ("") ("k") ("hola") none ("en") ("") ("hola")
      (by decide) (by decide)).2 (by decide) (by decide)⟩

/-- C5: whenever the joined argument string contains the help flag as a
substring, the run prints the help text and exits 1, whatever the
language environment variables, the access key and the network would
have been, so no validation and no network call can influence it. -/
theorem c5_help_short_circuits :
    ∀ (envIn envOut key args : String) (net : Option (Except String Ip)),
      containsHelp args = true →
      main_run envIn envOut key args net = ProgResult.exited [help_text] 1 := by
  intro envIn envOut key args net h
  simp [main_run, parse_input, h]

/-- Witness for C5 at the plain help invocation. -/
theorem c5_witness :
    main_run ("a") ("b") ("k") ("--help") none = ProgResult.exited [help_text] 1 :=
  c5_help_short_circuits ("a") ("b") ("k") ("--help") none (by decide)

/-- C6: a response body that fails to deserialize is reported as a
single line made of the fixed prefix followed by the error detail, the
process does not crash and falls through with exit status 0. -/
theorem c6_api_error_reported :
    ∀ (key e : String), key.isEmpty = false →
      translateRun key (some (Except.error e)) =
        ProgResult.exited [(("There was the following error with the API call: ") ++ e)] 0 := by
  intro key e hkey
  simp [translateRun, hkey]

/-- Witness for C6 at a concrete key and error detail. -/
theorem c6_witness :
    translateRun ("k") (some (Except.error ("boom"))) =
      ProgResult.exited
        [(("There was the following error with the API call: ") ++ ("boom"))] 0 :=
  c6_api_error_reported ("k") ("boom") rfl

/-- C7: the example argument string with both language environment
variables unset parses to the request en, fr, hello world; the raw text
capture still carries its leading space and resolution trims it. -/
theorem c7_example_parse :
    parse_input ("") ("") ("-i en -o fr hello world") =
        Outcome.ok ⟨("en"), ("fr"), ("hello world")⟩ ∧
      resolve_request ("") ("") ("-i en -o fr hello world") =
        (("en"), ("fr"), ("hello world")) ∧
      reCaptures (("-i en -o fr hello world").data) =
        some ⟨some (("en").data), some (("fr").data), ((" hello world").data)⟩ := by
  refine ⟨by decide, by decide, by decide⟩

/-- C8: every language code captured by the input or output flag group
is a nonempty run of lowercase ASCII letters, so the allow-listed codes
holding a hyphen or uppercase letters, such as zh-CN and zh-TW, can
never be produced by a capture even though they pass validation (they
remain reachable only through the environment variables). -/
theorem c8_captured_codes_lowercase :
    (∀ (s : List Char) (c : Caps) (l : List Char),
        reCaptures s = some c →
        (c.input_language = some l ∨ c.output_language = some l) →
        l ≠ [] ∧ (∀ ch ∈ l, isLowerAZ ch = true) ∧
          l ≠ (("zh-CN").data) ∧ l ≠ (("zh-TW").data)) ∧
      language_allowed ("zh-CN") = true ∧ language_allowed ("zh-TW") = true := by
  refine ⟨?_, by decide, by decide⟩
  intro s c l h hor
  have hbase := reCaptures_some_inv s c h
  have hcore : l ≠ [] ∧ ∀ ch ∈ l, isLowerAZ ch = true := by
    rcases hor with hl | hl
    · rcases hbase with ⟨hnone, -⟩ | ⟨ls, rest, hI, hsome, -⟩
      · rw [hnone] at hl
        exact Option.noConfusion hl
      · rw [hsome] at hl
        injection hl with hl
        subst hl
        have hsplit := matchFlagAt_some (("-i ").data) s ls rest hI
        exact ⟨hsplit.2.1, hsplit.2.2⟩
    · have haux : ∃ r1, reCapturesAux (c.input_language) r1 = some c := by
        rcases hbase with ⟨hnone, hx⟩ | ⟨ls, rest, -, hsome, hx⟩
        · exact ⟨s, by rw [hnone]; exact hx⟩
        · exact ⟨rest, by rw [hsome]; exact hx⟩
      obtain ⟨r1, haux⟩ := haux
      rcases (reCapturesAux_some_inv _ _ _ haux).2.2 with ⟨hnone2, -⟩ | ⟨ls2, hO, hsome2⟩
      · rw [hnone2] at hl
        exact Option.noConfusion hl
      · rw [hsome2] at hl
        injection hl with hl
        subst hl
        have hsplit := matchFlagO_some r1 ls2 c.text hO
        exact ⟨hsplit.2.1, hsplit.2.2⟩
  refine ⟨hcore.1, hcore.2, ?_, ?_⟩
  · intro heq
    have hmem : ('-') ∈ l := by rw [heq]; decide
    exact absurd (hcore.2 ('-') hmem) (by decide)
  · intro heq
    have hmem : ('-') ∈ l := by rw [heq]; decide
    exact absurd (hcore.2 ('-') hmem) (by decide)

/-- Witness for C8: the capture en of a concrete match is nonempty,
all lowercase, and neither zh-CN nor zh-TW. -/
theorem c8_witness :
    ("en").data ≠ ([] : List Char) ∧
      (∀ ch ∈ (("en").data), isLowerAZ ch = true) ∧
      ("en").data ≠ (("zh-CN").data) ∧ ("en").data ≠ (("zh-TW").data) :=
  c8_captured_codes_lowercase.1 (("-i en hola").data)
    ⟨some (("en").data), none, ((" hola").data)⟩ (("en").data) (by decide) (Or.inl rfl)

/-- C9: an input language is captured only when the input flag stands
at the very start of the joined argument string, so when the output
flag comes first, as in the example, only the output language is
captured and the input flag with its code is swallowed by the text
capture. -/
theorem c9_output_flag_before_input :
    (∀ (s : List Char) (c : Caps) (l : List Char),
        reCaptures s = some c → c.input_language = some l →
        ∃ rest : List Char, s = (("-i ").data) ++ rest) ∧
      reCaptures (("-o fr -i en hola").data) =
        some ⟨none, some (("fr").data), ((" -i en hola").data)⟩ ∧
      resolve_request ("en") ("xx") ("-o fr -i en hola") =
        (("en"), ("fr"), ("-i en hola")) := by
  refine ⟨?_, by decide, by decide⟩
  intro s c l h hin
  rcases reCaptures_some_inv s c h with ⟨hnone, -⟩ | ⟨ls, rest, hI, -, -⟩
  · rw [hnone] at hin
    exact Option.noConfusion hin
  · have hsplit := matchFlagAt_some (("-i ").data) s ls rest hI
    exact ⟨ls ++ rest, hsplit.1⟩

/-- Witness for C9: the concrete match of the example has an input
capture only because the string starts with the input flag. -/
theorem c9_witness :
    ∃ rest : List Char, (("-i de hola").data) = (("-i ").data) ++ rest :=
  c9_output_flag_before_input.1 (("-i de hola").data)
    ⟨some (("de").data), none, ((" hola").data)⟩ (("de").data) (by decide) rfl

/-- Counterexample to C10 as frozen: this argument string contains a
newline and no help flag, yet the anchored match succeeds, because the
newline is consumed by the whitespace repetition in front of the output
flag; both flags are captured, overriding the environment values, and
the text is x rather than the empty string. -/
theorem c10_counterexample :
    containsChar (("-i en\n-o fr x").data) '\n' = true ∧
      containsHelp ("-i en\n-o fr x") = false ∧
      reCaptures (("-i en\n-o fr x").data) =
        some ⟨some (("en").data), some (("fr").data), ((" x").data)⟩ ∧
      resolve_request ("aa") ("bb") ("-i en\n-o fr x") = (("en"), ("fr"), ("x")) := by
  refine ⟨by decide, by decide, by decide, by decide⟩

/-- C10 amended: for a joined argument string containing a newline,
either the anchored match fails, and then no capture occurs, the text
stays empty and both languages come solely from the environment, or the
match succeeded only because every newline was consumed by the
whitespace run in front of a recognized output flag, in which case the
output language is captured and the captured text is newline-free. -/
theorem c10_newline_blocks_match :
    ∀ (envIn envOut args : String),
      containsChar args.data '\n' = true →
      (reCaptures args.data = none →
        resolve_request envIn envOut args = (envIn, envOut, (""))) ∧
      (∀ c : Caps, reCaptures args.data = some c →
        c.output_language.isSome = true ∧ containsChar c.text '\n' = false) := by
  intro envIn envOut args hnl
  constructor
  · intro h
    simp [resolve_request, h]
  · intro c h
    rcases reCaptures_some_inv args.data c h with ⟨-, haux⟩ | ⟨ls, rest, hI, -, haux⟩
    · have haux2 := reCapturesAux_some_inv none args.data c haux
      rcases haux2.2.2 with ⟨-, htext⟩ | ⟨ls2, -, hosome⟩
      · exfalso
        have hfree := haux2.2.1
        rw [htext] at hfree
        rw [hfree] at hnl
        exact Bool.noConfusion hnl
      · rw [hosome]
        exact ⟨rfl, haux2.2.1⟩
    · have haux2 := reCapturesAux_some_inv (some ls) rest c haux
      rcases haux2.2.2 with ⟨-, htext⟩ | ⟨ls2, -, hosome⟩
      · exfalso
        have hsplit := matchFlagAt_some (("-i ").data) args.data ls rest hI
        have hmem : ('\n') ∈ args.data := (containsChar_iff args.data '\n').mp hnl
        rw [hsplit.1] at hmem
        rcases List.mem_append.mp hmem with hmem1 | hmem2
        · exact absurd hmem1 (by decide)
        rcases List.mem_append.mp hmem2 with hmem3 | hmem4
        · exact absurd (hsplit.2.2 ('\n') hmem3) (by decide)
        · have hfree := haux2.2.1
          rw [htext] at hfree
          exact absurd ((containsChar_iff rest '\n').mpr hmem4) (by rw [hfree]; decide)
      · rw [hosome]
        exact ⟨rfl, haux2.2.1⟩

/-- Witness for C10 amended, at both branches: a newline in the trailing
text makes the whole match fail and the environment values survive with
empty text, while a newline swallowed by the whitespace before the
output flag leaves a successful match with an output capture and a
newline-free text. -/
theorem c10_witness :
    resolve_request ("aa") ("bb") ("hola\nmundo") = (("aa"), ("bb"), ("")) ∧
      ((⟨some (("en").data), some (("fr").data), ((" x").data)⟩ : Caps).output_language.isSome
          = true ∧
        containsChar ((" x").data) '\n' = false) :=
  ⟨(c10_newline_blocks_match ("aa") ("bb") ("hola\nmundo") (by decide)).1 (by decide),
   (c10_newline_blocks_match ("aa") ("bb") ("-i en\n-o fr x") (by decide)).2
      ⟨some (("en").data), some (("fr").data), ((" x").data)⟩ (by decide)⟩
